import Mathlib

/-!
Verification development for the UPI transaction-details extractor.

The definitions below are a shallow embedding of the extraction engine in
`upi_extractor/core/extractor.py` (class `PaymentExtractor`):

* Document Records are association lists from field names to string values,
  mirroring Python dicts with insertion order (`rget` models `d.get(k)` with
  the empty string for an absent key, `rset` models `d[k] = v`).
* The regex-backed Pattern Catalog / Field Matcher calls are abstracted as
  function parameters where a claim is independent of the concrete regexes
  (`fm key text` models `self._find_match(key, text)`); the claims that do
  depend on concrete patterns (the amount rules, the standalone line
  recognizers of the multi-line scanner, the small substitution and
  character-class operations) are implemented directly over character lists,
  following Python `re` leftmost / greedy semantics for those patterns.
* CPython iteration over `set(all_ids)` is modelled by an explicit
  enumeration-function parameter `setEnum`: within one interpreter process
  the iteration order of a set built from the same insertions is a fixed
  function of the inserted elements.
* Exceptions inside the per-document `try` of `extract_all` (the OCR call is
  the fallible part) are modelled by the OCR collaborator returning
  `Except String String`.
* Python `hash(frozenset(...))` signatures are modelled by the underlying
  sets themselves, compared by set equality of (field, value) pairs.
-/

/-- Python `str` whitespace for `\s` and `str.strip`: space, tab, newline,
carriage return, vertical tab, form feed. -/
def pyIsSpace (c : Char) : Bool :=
  c = ' ' || c = '\t' || c = '\n' || c = '\r' || c.val = 11 || c.val = 12

/-- Python `str.strip()` on both ends. -/
def pyStrip (s : String) : String :=
  String.mk (((s.toList.dropWhile pyIsSpace).reverse.dropWhile pyIsSpace).reverse)

/-- Python `str.lower()` (ASCII part, which covers the catalog patterns). -/
def pyLower (s : String) : String :=
  String.mk (s.toList.map Char.toLower)

/-- Python `str.upper()` (ASCII part). -/
def pyUpper (s : String) : String :=
  String.mk (s.toList.map Char.toUpper)

/-- Python substring containment `needle in hay` (case-sensitive). -/
def containsSub (needle hay : String) : Bool :=
  hay.toList.tails.any (fun t => needle.toList.isPrefixOf t)

/-- Python `str.isdigit()` for ASCII text: non-empty and all digits. -/
def isPyDigit (s : String) : Bool :=
  !s.isEmpty && s.toList.all Char.isDigit

/-- Python `str.startswith(p)` via character lists. -/
def pyStartsWith (p s : String) : Bool :=
  p.toList.isPrefixOf s.toList

/-- Split a character list on a separator, keeping empty pieces, like
Python `str.split(sep)` for a one-character separator. -/
def splitListOn (sep : Char) : List Char → List (List Char)
  | [] => [[]]
  | c :: t =>
    if c = sep then [] :: splitListOn sep t
    else
      match splitListOn sep t with
      | h :: r => (c :: h) :: r
      | [] => [[c]]

/-- Python `text.split(chr(10))`. -/
def splitNL (s : String) : List String :=
  (splitListOn '\n' s.toList).map (fun l => String.mk l)

/-- Document Record: insertion-ordered mapping from field name to value,
modelling the Python dict built by `parse_details`. -/
abbrev Record := List (String × String)

/-- Model of `d.get(k)` / `d[k]` reads with `""` for an absent key (the
extractor treats a missing key and an empty value the same way, via
truthiness). -/
def rget : Record → String → String
  | [], _ => ""
  | (k', v) :: rest, k => if k' = k then v else rget rest k

/-- Model of the Python dict assignment `d[k] = v`: update in place if the
key exists (keeping its position), else append. -/
def rset : Record → String → String → Record
  | [], k, v => [(k, v)]
  | (k', v') :: rest, k, v =>
    if k' = k then (k, v) :: rest else (k', v') :: rset rest k v

/-- The key list of a record, in insertion order (Python `list(d.keys())`). -/
def rkeys (r : Record) : List String := r.map Prod.fst

theorem rget_rset_self (r : Record) (k v : String) :
    rget (rset r k v) k = v := by
  induction r with
  | nil => simp [rset, rget]
  | cons kv rest ih =>
    by_cases h : kv.1 = k
    · simp [rset, h, rget]
    · simp [rset, h, rget, ih]

theorem rget_rset_ne (r : Record) (k k' v : String) (h : k' ≠ k) :
    rget (rset r k' v) k = rget r k := by
  induction r with
  | nil => simp [rset, rget, h]
  | cons kv rest ih =>
    obtain ⟨a, b⟩ := kv
    by_cases hk : a = k'
    · have hak : ¬ a = k := by rw [hk]; exact h
      simp [rset, hk, rget, h, hak]
    · simp only [rset, hk, if_false, rget]
      by_cases hak : a = k
      · simp [hak]
      · simp [hak, ih]

theorem rkeys_rset_of_mem (r : Record) (k v : String) :
    k ∈ rkeys r → rkeys (rset r k v) = rkeys r := by
  induction r with
  | nil => intro h; simp [rkeys] at h
  | cons kv rest ih =>
    intro h
    obtain ⟨a, b⟩ := kv
    by_cases hk : a = k
    · simp [rset, hk, rkeys]
    · have hmem : k ∈ rkeys rest := by
        simp only [rkeys, List.map_cons, List.mem_cons] at h
        rcases h with h | h
        · exact absurd h.symm hk
        · exact h
      simp only [rset, hk, if_false, rkeys, List.map_cons]
      have := ih hmem
      simp only [rkeys] at this
      rw [this]

/-- Generic preservation: if a step never changes an already non-empty
field, neither does a left fold of that step. -/
theorem rget_foldl_preserve {α : Type} (f : Record → α → Record)
    (hf : ∀ d a k, rget d k ≠ "" → rget (f d a) k = rget d k)
    (l : List α) (d : Record) (k : String) (h : rget d k ≠ "") :
    rget (l.foldl f d) k = rget d k := by
  induction l generalizing d with
  | nil => rfl
  | cons a t ih =>
    have h1 := hf d a k h
    simp only [List.foldl_cons]
    rw [ih (f d a) (by rw [h1]; exact h), h1]

/-- Generic non-interference: a fold whose step only writes keys in `K`
leaves every key outside `K` untouched. -/
theorem rget_foldl_untouched {α : Type} (f : Record → α → Record)
    (K : List String)
    (hf : ∀ d a k, k ∉ K → rget (f d a) k = rget d k)
    (l : List α) (d : Record) (k : String) (hk : k ∉ K) :
    rget (l.foldl f d) k = rget d k := by
  induction l generalizing d with
  | nil => rfl
  | cons a t ih =>
    simp only [List.foldl_cons]
    rw [ih (f d a), hf d a k hk]

/-- Generic key-set stability of a fold. -/
theorem rkeys_foldl {α : Type} (f : Record → α → Record) (K : List String)
    (hf : ∀ d a, rkeys d = K → rkeys (f d a) = K)
    (l : List α) (d : Record) (hd : rkeys d = K) :
    rkeys (l.foldl f d) = K := by
  induction l generalizing d with
  | nil => exact hd
  | cons a t ih =>
    simp only [List.foldl_cons]
    exact ih (f d a) (hf d a hd)

/-! ## Amount normalization (`PaymentExtractor._clean_amount`) -/

/-- The substitution `re.sub(chr(91) ++ "^" ++ backslash-d-dot ++ chr(93), "", raw)`:
keep only digits and the decimal point. -/
def stripNonDigitDot (s : String) : String :=
  String.mk (s.toList.filter (fun c => c.isDigit || c = '.'))

/-- Model of `float(clean)` succeeding, for a string that consists only of
digits and dots (which is all `_clean_amount` ever passes to it): Python
`float` accepts such a string exactly when it has at least one digit and at
most one dot. -/
def floatParses (s : String) : Bool :=
  s.toList.any Char.isDigit && (s.toList.filter (fun c => c = '.')).length ≤ 1

/-- Shallow embedding of `PaymentExtractor._clean_amount`. -/
def cleanAmount (raw : String) : String :=
  if raw = "" then ""
  else
    let clean := stripNonDigitDot raw
    if floatParses clean then clean else raw

/-! ## Transaction-id classification (screenshot-mode disambiguator) -/

/-- One iteration of the `for txn in set(all_ids)` loop of `parse_details`:
strip the token, skip it when empty, then route it by shape to
`Google Transaction ID`, `Reference ID`, or `UPI Transaction ID`. -/
def classifyTxnStep (d : Record) (txn0 : String) : Record :=
  let txn := pyStrip txn0
  if txn = "" then d
  else if containsSub "CIC" txn ∨ (txn.length > 20 ∧ ¬ isPyDigit txn) then
    rset d "Google Transaction ID" txn
  else if isPyDigit txn ∧ txn.length ≥ 12 then
    rset d "Reference ID" txn
  else if txn.length > 8 then
    rset d "UPI Transaction ID" txn
  else d

/-- The `Payment Status` post-mapping of `parse_details`: uppercase the raw
status match and bucket it; when no bucket applies the field keeps its
initial empty value. -/
def mapStatus (statusRaw : String) : String :=
  let s := pyUpper statusRaw
  if containsSub "SUCCESS" s ∨ containsSub "COMPLETED" s then "SUCCESS"
  else if containsSub "FAIL" s then "FAILED"
  else if containsSub "PENDING" s ∨ containsSub "PROCESSING" s then "PENDING"
  else ""

/-! ## Positional heuristics (sender / receiver / bank-name line scan) -/

/-- The substitution `re.sub("^" ++ label ++ backslash-s-star ++ colon-dash-opt
++ backslash-s-star, "", line, flags=IGNORECASE)`: drop a leading label
(case-insensitively), then spaces, then one optional colon or dash, then
spaces; leave the line unchanged when the label is not a prefix. -/
def removeLeadingLabel (label line : String) : String :=
  let cs := line.toList
  if (label.toList.map Char.toLower).isPrefixOf (cs.map Char.toLower) then
    let rest := (cs.drop label.length).dropWhile pyIsSpace
    let rest :=
      match rest with
      | c :: t => if c = ':' || c = '-' then t else c :: t
      | [] => []
    String.mk (rest.dropWhile pyIsSpace)
  else line

/-- Bank-name heuristic for one line of `parse_details`. -/
def bankStep (d : Record) (line : String) : Record :=
  if containsSub "Bank" line ∧ rget d "Bank Name" = "" then
    if line.length < 40 ∧
        ¬ (containsSub "ref" (pyLower line) ∨ containsSub "id" (pyLower line) ∨
           containsSub "no" (pyLower line)) then
      rset d "Bank Name" line
    else d
  else d

/-- Receiver heuristic for one line of `parse_details` (index `i` into the
non-empty stripped line list). -/
def toStep (lines : List String) (d : Record) (i : Nat) (line : String) : Record :=
  if (pyStartsWith "to" (pyLower line) ∨ pyLower line = "paid to") ∧
      rget d "To (Receiver)" = "" then
    let clean := pyStrip (removeLeadingLabel "to" line)
    if clean ≠ "" then rset d "To (Receiver)" clean
    else if i + 1 < lines.length then rset d "To (Receiver)" (lines.getD (i + 1) "")
    else d
  else d

/-- Sender heuristic for one line of `parse_details`. -/
def fromStep (lines : List String) (d : Record) (i : Nat) (line : String) : Record :=
  if pyStartsWith "from" (pyLower line) ∧ rget d "From (Sender)" = "" then
    let clean := pyStrip (removeLeadingLabel "from" line)
    if clean ≠ "" then rset d "From (Sender)" clean
    else if i + 1 < lines.length then rset d "From (Sender)" (lines.getD (i + 1) "")
    else d
  else d

/-- One iteration of the heuristic line loop: bank, then receiver, then
sender, exactly in source order. -/
def heuristicStep (lines : List String) (d : Record) (il : Nat × String) : Record :=
  fromStep lines (toStep lines (bankStep d il.2) il.1 il.2) il.1 il.2

/-- The stripped, non-empty lines the heuristic loop iterates. -/
def heuristicLines (text : String) : List String :=
  ((splitNL text).map pyStrip).filter (fun l => l ≠ "")

/-- The full sender / receiver / bank-name scan of `parse_details`. -/
def heuristicScan (text : String) (d : Record) : Record :=
  ((heuristicLines text).enum).foldl (heuristicStep (heuristicLines text)) d

/-! ## Screenshot-mode `parse_details`

`fm key text` abstracts `self._find_match(key, text)` over the screenshot
pattern catalog; `allIds text` abstracts the concatenated
`re.findall(pattern, text)` results over `self.patterns` at key txn_id;
`setEnum` abstracts the process's iteration order over `set(all_ids)`. -/

/-- The initial screenshot-mode record of `parse_details`, all field keys
pre-populated (empty string = not found). -/
def screenshotInit (text filename : String) : Record :=
  [("File Name", filename),
   ("UPI Transaction ID", ""),
   ("Google Transaction ID", ""),
   ("Reference ID", ""),
   ("From (Sender)", ""),
   ("To (Receiver)", ""),
   ("UPI ID / VPA", ""),
   ("Bank Name", ""),
   ("Amount", ""),
   ("Payment Status", ""),
   ("Date", ""),
   ("Time", ""),
   ("Transaction Note", ""),
   ("All Extracted Text", pyStrip text)]

/-- Shallow embedding of the screenshot branch of
`PaymentExtractor.parse_details`. -/
def parseScreenshot (fm : String → String → String)
    (allIds : String → List String) (setEnum : List String → List String)
    (text filename : String) : Record :=
  let d := screenshotInit text filename
  let d := rset d "Amount" (cleanAmount (fm "amount" text))
  let d := rset d "UPI ID / VPA" (fm "upi_id" text)
  let d := rset d "Date" (fm "date" text)
  let d := rset d "Time" (fm "time" text)
  let d := rset d "Payment Status" (mapStatus (fm "status" text))
  let d := (setEnum (allIds text)).foldl classifyTxnStep d
  heuristicScan text d

/-! ## Passbook multi-line scanner (`PaymentExtractor._scan_passbook_lines`) -/

/-- A multi-line rule triple from `self._passbook_multiline_labels`:
`labelMatches line` models `re.search(label_re, line, re.IGNORECASE)`
being truthy, and `valueMatch next_line` models
`re.match(value_re, next_line, re.IGNORECASE)` returning group 1. -/
structure MLTriple where
  labelMatches : String → Bool
  fieldKey : String
  valueMatch : String → Option String

/-- The stripped line list `lines` of `_scan_passbook_lines`. -/
def scanLines (text : String) : List String :=
  (splitNL text).map pyStrip

/-- The helper `_get_next_nonempty(i)`: first line after index `i` whose
stripped form is non-empty, stripped; empty string when none exists. -/
def nextNonempty (lines : List String) (i : Nat) : String :=
  match (lines.drop (i + 1)).find? (fun l => pyStrip l ≠ "") with
  | some l => pyStrip l
  | none => ""

/-- Handling of one rule triple on one line: skip it when its destination
field is already non-empty, otherwise try label on this line and value on
the next non-empty line. -/
def tripleStep (line nextLine : String) (d : Record) (tr : MLTriple) : Record :=
  if rget d tr.fieldKey ≠ "" then d
  else if tr.labelMatches line then
    if nextLine ≠ "" then
      match tr.valueMatch nextLine with
      | some v => rset d tr.fieldKey (pyStrip v)
      | none => d
    else d
  else d

/-- The standalone account-number recognizer
`re.match(anchored 9-to-18-digit pattern, line)`: on the already stripped
line this holds exactly when the line is 9 to 18 digits. -/
def isDigitLine (line : String) : Bool :=
  let core := pyStrip line
  isPyDigit core && 9 ≤ core.length && core.length ≤ 18

/-- The 11-character IFSC shape `4 uppercase letters, literal 0, 6 of
uppercase letters or digits` (the scanner matches it case-sensitively). -/
def isIfscShape (s : String) : Bool :=
  let cs := s.toList
  cs.length = 11 && (cs.take 4).all (fun c => 'A' ≤ c && c ≤ 'Z') &&
    cs.getD 4 ' ' = '0' &&
    (cs.drop 5).all (fun c => ('A' ≤ c && c ≤ 'Z') || c.isDigit)

/-- The standalone account-number branch of the scanner. -/
def accountStandalone (d : Record) (line : String) : Record :=
  if rget d "Account Number" = "" ∧ isDigitLine line then
    rset d "Account Number" (pyStrip line)
  else d

/-- The standalone IFSC branch of the scanner, including its guard against
storing a value equal to the already-detected MICR code. -/
def ifscStandalone (d : Record) (line : String) : Record :=
  if rget d "IFSC Code" = "" ∧ isIfscShape (pyStrip line) then
    if pyStrip line ≠ rget d "MICR Code" then rset d "IFSC Code" (pyStrip line)
    else d
  else d

/-- One iteration of the scanner's line loop: skip empty lines, run every
rule triple against (line, next non-empty line), then the two standalone
recognizers. -/
def scanLineStep (triples : List MLTriple) (lines : List String)
    (d : Record) (il : Nat × String) : Record :=
  if il.2 = "" then d
  else
    let nl := nextNonempty lines il.1
    let d := triples.foldl (tripleStep il.2 nl) d
    let d := accountStandalone d il.2
    ifscStandalone d il.2

/-- Shallow embedding of `PaymentExtractor._scan_passbook_lines`. -/
def scanPassbookLines (triples : List MLTriple) (text : String) (d : Record) :
    Record :=
  ((scanLines text).enum).foldl (scanLineStep triples (scanLines text)) d

/-! ## Passbook post-processing and `_parse_passbook_details`

`pbfm key text` abstracts `self._find_match(key, text, self.passbook_patterns)`. -/

/-- Strip whitespace and dashes (`re.sub` with the whitespace-dash class). -/
def stripSpaceDash (s : String) : String :=
  String.mk (s.toList.filter (fun c => !(pyIsSpace c || c = '-')))

/-- Remove every dot and comma (`replace(".", "").replace(",", "")`). -/
def stripDotComma (s : String) : String :=
  String.mk (s.toList.filter (fun c => !(c = '.' || c = ',')))

/-- Remove every plain space (`replace(" ", "")`). -/
def stripSpaces (s : String) : String :=
  String.mk (s.toList.filter (fun c => !(c = ' ')))

/-- The account-type abbreviation table `type_map`. -/
def typeMap : String → Option String
  | "SB" => some "Savings"
  | "SAVINGS" => some "Savings"
  | "CA" => some "Current"
  | "CURRENT" => some "Current"
  | "FD" => some "Fixed Deposit"
  | "FIXED DEPOSIT" => some "Fixed Deposit"
  | "RD" => some "Recurring Deposit"
  | "RECURRING DEPOSIT" => some "Recurring Deposit"
  | _ => none

/-- Post-processing: de-punctuate the account number. -/
def ppAccountClean (d : Record) : Record :=
  if rget d "Account Number" ≠ "" then
    rset d "Account Number" (stripSpaceDash (rget d "Account Number"))
  else d

/-- Post-processing: normalize the account type through `type_map`. -/
def ppAccountType (d : Record) : Record :=
  let accType := if rget d "Account Type" ≠ "" then pyUpper (rget d "Account Type") else ""
  match typeMap accType with
  | some t => rset d "Account Type" t
  | none => d

/-- Post-processing: clear MICR when it equals the IFSC code. -/
def ppIfscMicr (d : Record) : Record :=
  if rget d "IFSC Code" ≠ "" ∧ rget d "MICR Code" ≠ "" ∧
      rget d "IFSC Code" = rget d "MICR Code" then
    rset d "MICR Code" ""
  else d

/-- Post-processing: clear a 9-digit balance that equals the MICR code. -/
def ppBalanceMicr (d : Record) : Record :=
  let bal := rget d "Balance (₹)"
  if bal ≠ "" ∧ (stripDotComma bal).length = 9 then
    if bal = stripSpaces (rget d "MICR Code") then rset d "Balance (₹)" ""
    else d
  else d

/-- Post-processing: de-punctuate the mobile number. -/
def ppMobile (d : Record) : Record :=
  if rget d "Mobile Number" ≠ "" then
    rset d "Mobile Number" (stripSpaceDash (rget d "Mobile Number"))
  else d

/-- The whole post-processing block of `_parse_passbook_details`, in source
order. -/
def postProcessPassbook (d : Record) : Record :=
  ppMobile (ppBalanceMicr (ppIfscMicr (ppAccountType (ppAccountClean d))))

/-- Pass 1 of `_parse_passbook_details`: the inline regex extraction dict,
in source order. -/
def passbookInit (pbfm : String → String → String) (text filename : String) :
    Record :=
  [("File Name", filename),
   ("Bank Name", pbfm "bank_name" text),
   ("Account Holder", pbfm "account_holder" text),
   ("Account Number", pbfm "account_number" text),
   ("Account Type", pbfm "account_type" text),
   ("IFSC Code", pbfm "ifsc_code" text),
   ("MICR Code", pbfm "micr_code" text),
   ("Branch Name", pbfm "branch_name" text),
   ("CIF Number", pbfm "cif_number" text),
   ("Date of Opening", pbfm "date_of_opening" text),
   ("Nomination", pbfm "nomination" text),
   ("Joint Holder", pbfm "joint_holder" text),
   ("Address", pbfm "address" text),
   ("Mobile Number", pbfm "mobile_number" text),
   ("Date", pbfm "date" text),
   ("Transaction Type", pbfm "transaction_type" text),
   ("Narration", pbfm "narration" text),
   ("Reference Number", pbfm "reference_number" text),
   ("Cheque Number", pbfm "cheque_number" text),
   ("Credit (₹)", cleanAmount (pbfm "credit_amount" text)),
   ("Debit (₹)", cleanAmount (pbfm "debit_amount" text)),
   ("Balance (₹)", cleanAmount (pbfm "balance" text)),
   ("Opening Balance (₹)", cleanAmount (pbfm "opening_balance" text)),
   ("Closing Balance (₹)", cleanAmount (pbfm "closing_balance" text)),
   ("All Extracted Text", pyStrip text)]

/-- Shallow embedding of `PaymentExtractor._parse_passbook_details`. -/
def parsePassbookDetails (pbfm : String → String → String)
    (triples : List MLTriple) (text filename : String) : Record :=
  postProcessPassbook (scanPassbookLines triples text (passbookInit pbfm text filename))

/-- Shallow embedding of `PaymentExtractor.parse_details`: route to the
passbook parser when the source type is `passbook`, else run the screenshot
parser. -/
def parseDetails (fm : String → String → String)
    (allIds : String → List String) (setEnum : List String → List String)
    (pbfm : String → String → String) (triples : List MLTriple)
    (text filename sourceType : String) : Record :=
  if sourceType = "passbook" then parsePassbookDetails pbfm triples text filename
  else parseScreenshot fm allIds setEnum text filename

/-! ## Field matcher (`PaymentExtractor._find_match`)

A rule models one regex of a field's list: `search text` models
`re.search(pattern, text, re.IGNORECASE | re.MULTILINE)`, yielding
`(group(0), group(1))` of the leftmost match; `hasGroups` models
`match.groups()` being non-empty, which for these patterns is a property of
the pattern alone. -/
structure Rule where
  hasGroups : Bool
  search : String → Option (String × String)

/-- Shallow embedding of `PaymentExtractor._find_match`: first matching rule
in declaration order wins; its capture group (or whole match without capture
groups) is returned stripped; no match at all yields the empty string. -/
def findMatch : List Rule → String → String
  | [], _ => ""
  | r :: rs, text =>
    match r.search text with
    | some m => if r.hasGroups then pyStrip m.2 else pyStrip m.1
    | none => findMatch rs text

/-! ### The five screenshot amount rules, implemented over character lists

Adjacent pieces of these patterns consume pairwise disjoint character
classes, so the greedy left-to-right reading below coincides with Python
regex backtracking semantics for them. -/

/-- Take one leading character when it satisfies the predicate (an optional
single-character class such as a dot or colon-dash). -/
def optTake (p : Char → Bool) : List Char → (List Char × List Char)
  | [] => ([], [])
  | c :: t => if p c then ([c], t) else ([], c :: t)

/-- Split off the longest prefix satisfying the predicate (a starred
character class). -/
def spanWhile (p : Char → Bool) (cs : List Char) : (List Char × List Char) :=
  (cs.takeWhile p, cs.dropWhile p)

/-- The class of the rupee sign, R and S, case-insensitively. -/
def currencyChar (c : Char) : Bool :=
  c = '₹' || c.toLower = 'r' || c.toLower = 's'

/-- The class of digits and commas. -/
def digitComma (c : Char) : Bool :=
  c.isDigit || c = ','

/-- Match the capture group `one or more digits-or-commas, optional dot, up
to two digits` at the head; return the group and the rest. -/
def amountNum (cs : List Char) : Option (List Char × List Char) :=
  let a := cs.takeWhile digitComma
  if a.isEmpty then none
  else
    let r := cs.drop a.length
    match r with
    | '.' :: r2 =>
      let b := (r2.takeWhile Char.isDigit).take 2
      some (a ++ '.' :: b, r2.drop b.length)
    | _ => some (a, r)

/-- Case-insensitively strip a literal; return the consumed text and the
rest. -/
def stripLitCI : List Char → List Char → Option (List Char × List Char)
  | [], cs => some ([], cs)
  | l :: ls, c :: cs =>
    if c.toLower = l.toLower then
      match stripLitCI ls cs with
      | some (m, r) => some (c :: m, r)
      | none => none
    else none
  | _ :: _, [] => none

/-- Amount rule 1, `currency sign, optional dot, spaces, amount`, tried at
one position; returns (whole match, group). -/
def tryAmount1 : List Char → Option (List Char × List Char)
  | [] => none
  | c :: t =>
    if currencyChar c then
      let p1 := optTake (fun x => x = '.') t
      let p2 := spanWhile pyIsSpace p1.2
      match amountNum p2.2 with
      | some (g, _) => some (c :: (p1.1 ++ p2.1 ++ g), g)
      | none => none
    else none

/-- Amount rule 2, `Amount, spaces, optional colon-dash, spaces, optional
currency sign, optional dot, spaces, amount`, tried at one position. -/
def tryAmount2 (cs : List Char) : Option (List Char × List Char) :=
  match stripLitCI "amount".toList cs with
  | none => none
  | some (m0, r0) =>
    let p1 := spanWhile pyIsSpace r0
    let p2 := optTake (fun x => x = ':' || x = '-') p1.2
    let p3 := spanWhile pyIsSpace p2.2
    let p4 := optTake currencyChar p3.2
    let p5 := optTake (fun x => x = '.') p4.2
    let p6 := spanWhile pyIsSpace p5.2
    match amountNum p6.2 with
    | some (g, _) =>
      some (m0 ++ p1.1 ++ p2.1 ++ p3.1 ++ p4.1 ++ p5.1 ++ p6.1 ++ g, g)
    | none => none

/-- Amount rule 3, `Paid, spaces, optional currency sign, optional dot,
spaces, amount`, tried at one position. -/
def tryAmount3 (cs : List Char) : Option (List Char × List Char) :=
  match stripLitCI "paid".toList cs with
  | none => none
  | some (m0, r0) =>
    let p1 := spanWhile pyIsSpace r0
    let p2 := optTake currencyChar p1.2
    let p3 := optTake (fun x => x = '.') p2.2
    let p4 := spanWhile pyIsSpace p3.2
    match amountNum p4.2 with
    | some (g, _) => some (m0 ++ p1.1 ++ p2.1 ++ p3.1 ++ p4.1 ++ g, g)
    | none => none

/-- Amount rule 4, `Total, spaces, Payable, spaces, optional colon-dash,
spaces, optional currency sign, optional dot, spaces, amount`, tried at one
position. -/
def tryAmount4 (cs : List Char) : Option (List Char × List Char) :=
  match stripLitCI "total".toList cs with
  | none => none
  | some (m0, r0) =>
    let p1 := spanWhile pyIsSpace r0
    match stripLitCI "payable".toList p1.2 with
    | none => none
    | some (m1, r1) =>
      let p2 := spanWhile pyIsSpace r1
      let p3 := optTake (fun x => x = ':' || x = '-') p2.2
      let p4 := spanWhile pyIsSpace p3.2
      let p5 := optTake currencyChar p4.2
      let p6 := optTake (fun x => x = '.') p5.2
      let p7 := spanWhile pyIsSpace p6.2
      match amountNum p7.2 with
      | some (g, _) =>
        some (m0 ++ p1.1 ++ m1 ++ p2.1 ++ p3.1 ++ p4.1 ++ p5.1 ++ p6.1 ++ p7.1 ++ g, g)
      | none => none

/-- The part of a trailing whitespace run consumed by `spaces-then-dollar`
in MULTILINE mode when the run does not reach the end of the text: up to,
excluding, its last newline. -/
def wsUpToLastNL (ws : List Char) : List Char :=
  ((ws.reverse.dropWhile (fun c => !(c = '\n'))).drop 1).reverse

/-- Amount rule 5, the anchored standalone amount line `start anchor,
spaces, currency sign, optional dot, spaces, amount, spaces, end anchor`,
tried at one line-start position (MULTILINE anchors). -/
def tryAmount5 (cs : List Char) : Option (List Char × List Char) :=
  let p0 := spanWhile pyIsSpace cs
  match p0.2 with
  | [] => none
  | c :: t =>
    if currencyChar c then
      let p1 := optTake (fun x => x = '.') t
      let p2 := spanWhile pyIsSpace p1.2
      match amountNum p2.2 with
      | some (g, rest) =>
        let ws := rest.takeWhile pyIsSpace
        if (rest.drop ws.length).isEmpty then
          some (p0.1 ++ c :: (p1.1 ++ p2.1 ++ g) ++ ws, g)
        else if ws.contains '\n' then
          some (p0.1 ++ c :: (p1.1 ++ p2.1 ++ g) ++ wsUpToLastNL ws, g)
        else none
      | none => none
    else none

/-- Leftmost search for an unanchored pattern: try every suffix, leftmost
first. -/
def searchWith (tryAt : List Char → Option (List Char × List Char))
    (s : String) : Option (String × String) :=
  (s.toList.tails.findSome? tryAt).map (fun p => (String.mk p.1, String.mk p.2))

/-- The suffixes of the text that start right after a newline. -/
def lineStarts : List Char → List (List Char)
  | [] => []
  | c :: t => if c = '\n' then t :: lineStarts t else lineStarts t

/-- Leftmost search for a start-anchored MULTILINE pattern: try the text
start and every position after a newline, leftmost first. -/
def searchWithLS (tryAt : List Char → Option (List Char × List Char))
    (s : String) : Option (String × String) :=
  ((s.toList :: lineStarts s.toList).findSome? tryAt).map
    (fun p => (String.mk p.1, String.mk p.2))

/-- The ordered amount rule list `self.patterns` at key amount; every rule
declares one capture group. -/
def amountRules : List Rule :=
  [⟨true, searchWith tryAmount1⟩,
   ⟨true, searchWith tryAmount2⟩,
   ⟨true, searchWith tryAmount3⟩,
   ⟨true, searchWith tryAmount4⟩,
   ⟨true, searchWithLS tryAmount5⟩]

/-! ## Batch pipeline (`PaymentExtractor.extract_all`)

`ocr p` models `self.ocr.extract_text(p, source_type)` together with any
exception escaping the per-document `try` body; `parse text fn` models
`self.parse_details(text, fn, source_type)`; `basename` models
`os.path.basename`. -/

/-- The batch summary dict. -/
structure Summary where
  success : Nat
  failed : Nat
  duplicates : Nat
  errors : List (String × String)
deriving DecidableEq, Repr

/-- The duplicate-detection content signature: the (field, value) items with
a non-empty value, excluding the file name and the raw-text field,
modelling `frozenset(key_fields.items())`. -/
def signature (d : Record) : List (String × String) :=
  d.filter (fun kv => kv.1 ≠ "File Name" ∧ kv.1 ≠ "All Extracted Text" ∧ kv.2 ≠ "")

/-- Equality of two signatures as sets of pairs (`frozenset` equality). -/
def sigEq (a b : List (String × String)) : Bool :=
  a.all (fun x => b.contains x) && b.all (fun x => a.contains x)

/-- Membership of a signature in the `seen_hashes` collection. -/
def seenContains (seen : List (List (String × String)))
    (sig : List (String × String)) : Bool :=
  seen.any (fun s => sigEq s sig)

/-- The loop state of `extract_all`: accumulated records, seen signatures,
summary. -/
structure BatchState where
  out : List Record
  seen : List (List (String × String))
  summary : Summary
deriving DecidableEq, Repr

/-- One iteration of the `extract_all` loop over `image_paths`. -/
def extractStep (ocr : String → Except String String)
    (parse : String → String → Record) (basename : String → String)
    (st : BatchState) (imgPath : String) : BatchState :=
  let filename := basename imgPath
  match ocr imgPath with
  | Except.error e =>
    { out := st.out ++ [[("File Name", filename), ("Error", e)]],
      seen := st.seen,
      summary :=
        { st.summary with
          failed := st.summary.failed + 1,
          errors := st.summary.errors ++ [(filename, e)] } }
  | Except.ok rawText =>
    let parsed := parse rawText filename
    let sig := signature parsed
    if seenContains st.seen sig then
      { st with summary := { st.summary with duplicates := st.summary.duplicates + 1 } }
    else
      { out := st.out ++ [parsed],
        seen := st.seen ++ [sig],
        summary := { st.summary with success := st.summary.success + 1 } }

/-- The initial batch state. -/
def initBatchState : BatchState :=
  { out := [], seen := [], summary := ⟨0, 0, 0, []⟩ }

/-- Shallow embedding of `PaymentExtractor.extract_all` (progress callbacks
have no effect on the returned data and are omitted). -/
def extractAll (ocr : String → Except String String)
    (parse : String → String → Record) (basename : String → String)
    (paths : List String) : List Record × Summary :=
  let final := paths.foldl (extractStep ocr parse basename) initBatchState
  (final.out, final.summary)

/-! ## Helper lemmas about the pipeline passes -/

theorem classifyTxnStep_untouched (d : Record) (a k : String)
    (h1 : k ≠ "Google Transaction ID") (h2 : k ≠ "Reference ID")
    (h3 : k ≠ "UPI Transaction ID") :
    rget (classifyTxnStep d a) k = rget d k := by
  simp only [classifyTxnStep]
  split_ifs
  all_goals
    first
    | rfl
    | exact rget_rset_ne _ _ _ _ (Ne.symm h1)
    | exact rget_rset_ne _ _ _ _ (Ne.symm h2)
    | exact rget_rset_ne _ _ _ _ (Ne.symm h3)

theorem classifyFold_untouched (l : List String) (d : Record) (k : String)
    (h1 : k ≠ "Google Transaction ID") (h2 : k ≠ "Reference ID")
    (h3 : k ≠ "UPI Transaction ID") :
    rget (l.foldl classifyTxnStep d) k = rget d k := by
  refine rget_foldl_untouched classifyTxnStep
    ["Google Transaction ID", "Reference ID", "UPI Transaction ID"] ?_ l d k ?_
  · intro d' a k' hk'
    simp only [List.mem_cons, List.not_mem_nil, or_false, not_or] at hk'
    exact classifyTxnStep_untouched d' a k' hk'.1 hk'.2.1 hk'.2.2
  · simp only [List.mem_cons, List.not_mem_nil, or_false, not_or]
    exact ⟨h1, h2, h3⟩

theorem bankStep_untouched (d : Record) (line k : String) (h : k ≠ "Bank Name") :
    rget (bankStep d line) k = rget d k := by
  simp only [bankStep]
  split_ifs
  all_goals first | rfl | exact rget_rset_ne _ _ _ _ (Ne.symm h)

theorem toStep_untouched (lines : List String) (d : Record) (i : Nat)
    (line k : String) (h : k ≠ "To (Receiver)") :
    rget (toStep lines d i line) k = rget d k := by
  simp only [toStep]
  split_ifs
  all_goals first | rfl | exact rget_rset_ne _ _ _ _ (Ne.symm h)

theorem fromStep_untouched (lines : List String) (d : Record) (i : Nat)
    (line k : String) (h : k ≠ "From (Sender)") :
    rget (fromStep lines d i line) k = rget d k := by
  simp only [fromStep]
  split_ifs
  all_goals first | rfl | exact rget_rset_ne _ _ _ _ (Ne.symm h)

theorem heuristicStep_untouched (lines : List String) (d : Record)
    (il : Nat × String) (k : String) (h1 : k ≠ "Bank Name")
    (h2 : k ≠ "To (Receiver)") (h3 : k ≠ "From (Sender)") :
    rget (heuristicStep lines d il) k = rget d k := by
  unfold heuristicStep
  rw [fromStep_untouched _ _ _ _ _ h3, toStep_untouched _ _ _ _ _ h2,
    bankStep_untouched _ _ _ h1]

theorem heuristicScan_untouched (text : String) (d : Record) (k : String)
    (h1 : k ≠ "Bank Name") (h2 : k ≠ "To (Receiver)") (h3 : k ≠ "From (Sender)") :
    rget (heuristicScan text d) k = rget d k := by
  unfold heuristicScan
  refine rget_foldl_untouched _
    ["Bank Name", "To (Receiver)", "From (Sender)"] ?_ _ d k ?_
  · intro d' a k' hk'
    simp only [List.mem_cons, List.not_mem_nil, or_false, not_or] at hk'
    exact heuristicStep_untouched _ d' a k' hk'.1 hk'.2.1 hk'.2.2
  · simp only [List.mem_cons, List.not_mem_nil, or_false, not_or]
    exact ⟨h1, h2, h3⟩

/-- The `Amount` field of a screenshot record is exactly the cleaned raw
amount match: no later pass touches it. -/
theorem parseScreenshot_amount (fm : String → String → String)
    (allIds : String → List String) (setEnum : List String → List String)
    (text fn : String) :
    rget (parseScreenshot fm allIds setEnum text fn) "Amount" =
      cleanAmount (fm "amount" text) := by
  unfold parseScreenshot
  rw [heuristicScan_untouched _ _ _ (by decide) (by decide) (by decide),
    classifyFold_untouched _ _ _ (by decide) (by decide) (by decide),
    rget_rset_ne _ _ _ _ (by decide), rget_rset_ne _ _ _ _ (by decide),
    rget_rset_ne _ _ _ _ (by decide), rget_rset_ne _ _ _ _ (by decide),
    rget_rset_self]

/-! ## Claim theorems -/

/-- C5: Amount normalization. For a raw string matched by an amount rule,
the stored value is the digits-and-dot stripped form when that form parses
as a non-negative decimal number, the unchanged raw match when it does not,
and the empty string when there was no match; in particular a matched
rupee-sign 1,500.00 yields 1500.00, and the screenshot record's Amount field
is exactly the cleaned raw match. -/
theorem C5_amount_normalization (raw : String) :
    (raw = "" → cleanAmount raw = "") ∧
    (raw ≠ "" → floatParses (stripNonDigitDot raw) = true →
      cleanAmount raw = stripNonDigitDot raw) ∧
    (raw ≠ "" → floatParses (stripNonDigitDot raw) = false →
      cleanAmount raw = raw) ∧
    cleanAmount "₹ 1,500.00" = "1500.00" ∧
    cleanAmount (findMatch amountRules "₹ 1,500.00") = "1500.00" ∧
    (∀ (fm : String → String → String) (allIds : String → List String)
      (setEnum : List String → List String) (text fn : String),
      fm "amount" text = "" →
      rget (parseScreenshot fm allIds setEnum text fn) "Amount" = "") := by
  refine ⟨?_, ?_, ?_, by decide, by decide, ?_⟩
  · intro h; simp [cleanAmount, h]
  · intro h hp; simp [cleanAmount, h, hp]
  · intro h hp; simp [cleanAmount, h, hp]
  · intro fm allIds setEnum text fn h
    rw [parseScreenshot_amount, h]
    decide

/-- Witness for C5 at the loosely matched unparseable string from the spec:
stripping leaves nothing parseable, so the original match is retained. -/
theorem C5_amount_normalization_witness :
    cleanAmount "garbage-amount" = "garbage-amount" :=
  (C5_amount_normalization "garbage-amount").2.2.1 (by decide) (by decide)

/-- C6: Transaction-id classification. Each distinct trimmed non-empty
candidate token is routed, in priority order, to Google Transaction ID
(contains CIC, or longer than 20 and not purely digits), else Reference ID
(purely digits, length at least 12), else UPI Transaction ID (length over
8); an unclassified token of length at most 8 is assigned to no field, and
an empty trimmed token is skipped. -/
theorem C6_txn_classification (d : Record) (t : String) :
    (pyStrip t = "" → classifyTxnStep d t = d) ∧
    (pyStrip t ≠ "" →
      (containsSub "CIC" (pyStrip t) = true ∨
        ((pyStrip t).length > 20 ∧ isPyDigit (pyStrip t) = false)) →
      classifyTxnStep d t = rset d "Google Transaction ID" (pyStrip t)) ∧
    (pyStrip t ≠ "" → containsSub "CIC" (pyStrip t) = false →
      ((pyStrip t).length ≤ 20 ∨ isPyDigit (pyStrip t) = true) →
      isPyDigit (pyStrip t) = true → 12 ≤ (pyStrip t).length →
      classifyTxnStep d t = rset d "Reference ID" (pyStrip t)) ∧
    (pyStrip t ≠ "" → containsSub "CIC" (pyStrip t) = false →
      ((pyStrip t).length ≤ 20 ∨ isPyDigit (pyStrip t) = true) →
      (isPyDigit (pyStrip t) = false ∨ (pyStrip t).length < 12) →
      8 < (pyStrip t).length →
      classifyTxnStep d t = rset d "UPI Transaction ID" (pyStrip t)) ∧
    (pyStrip t ≠ "" → containsSub "CIC" (pyStrip t) = false →
      ((pyStrip t).length ≤ 20 ∨ isPyDigit (pyStrip t) = true) →
      (isPyDigit (pyStrip t) = false ∨ (pyStrip t).length < 12) →
      (pyStrip t).length ≤ 8 →
      classifyTxnStep d t = d) := by
  refine ⟨?_, ?_, ?_, ?_, ?_⟩
  · intro h; simp [classifyTxnStep, h]
  · intro h hg
    have hg' : containsSub "CIC" (pyStrip t) = true ∨
        ((pyStrip t).length > 20 ∧ ¬ isPyDigit (pyStrip t) = true) := by
      rcases hg with hg | hg
      · exact Or.inl hg
      · exact Or.inr ⟨hg.1, by simp [hg.2]⟩
    simp only [classifyTxnStep]
    rw [if_neg h, if_pos hg']
  · intro h hc hl hd hlen
    have hng : ¬ (containsSub "CIC" (pyStrip t) = true ∨
        ((pyStrip t).length > 20 ∧ ¬ isPyDigit (pyStrip t) = true)) := by
      simp [hc, hd]
    simp only [classifyTxnStep]
    rw [if_neg h, if_neg hng, if_pos ⟨hd, hlen⟩]
  · intro h hc hl hr hlen
    have hng : ¬ (containsSub "CIC" (pyStrip t) = true ∨
        ((pyStrip t).length > 20 ∧ ¬ isPyDigit (pyStrip t) = true)) := by
      intro hx
      rcases hx with hx | hx
      · rw [hx] at hc; cases hc
      · rcases hl with hl | hl
        · omega
        · exact hx.2 hl
    have hnr : ¬ (isPyDigit (pyStrip t) = true ∧ 12 ≤ (pyStrip t).length) := by
      intro hx
      rcases hr with hr | hr
      · rw [hr] at hx; cases hx.1
      · omega
    simp only [classifyTxnStep]
    rw [if_neg h, if_neg hng, if_neg hnr, if_pos hlen]
  · intro h hc hl hr hlen
    have hng : ¬ (containsSub "CIC" (pyStrip t) = true ∨
        ((pyStrip t).length > 20 ∧ ¬ isPyDigit (pyStrip t) = true)) := by
      intro hx
      rcases hx with hx | hx
      · rw [hx] at hc; cases hc
      · rcases hl with hl | hl
        · omega
        · exact hx.2 hl
    have hnr : ¬ (isPyDigit (pyStrip t) = true ∧ 12 ≤ (pyStrip t).length) := by
      intro hx
      rcases hr with hr | hr
      · rw [hr] at hx; cases hx.1
      · omega
    have hn8 : ¬ ((pyStrip t).length > 8) := by omega
    simp only [classifyTxnStep]
    rw [if_neg h, if_neg hng, if_neg hnr, if_neg hn8]

/-- Witness for C6: the 12-digit token (with surrounding whitespace) is
trimmed and stored as the Reference ID. -/
theorem C6_txn_classification_witness :
    classifyTxnStep [] " 123456789012 " =
      rset [] "Reference ID" (pyStrip " 123456789012 ") :=
  (C6_txn_classification [] " 123456789012 ").2.2.1 (by decide) (by decide)
    (by decide) (by decide) (by decide)

/-- C7: Field-matcher contract. The matcher tries a field's rules in
declaration order: when every earlier rule fails and a rule matches, that
rule's first capture group (or whole match for a rule without groups) is
returned trimmed; when no rule matches the result is the empty string; and
on the amount text `Total Payable: Rs 500` the captured value is `500`. -/
theorem C7_matcher_contract :
    (∀ (pre post : List Rule) (r : Rule) (text : String) (m : String × String),
      (∀ r' ∈ pre, r'.search text = none) → r.search text = some m →
      findMatch (pre ++ r :: post) text =
        (if r.hasGroups then pyStrip m.2 else pyStrip m.1)) ∧
    (∀ (rules : List Rule) (text : String),
      (∀ r ∈ rules, r.search text = none) → findMatch rules text = "") ∧
    findMatch amountRules "Total Payable: Rs 500" = "500" := by
  refine ⟨?_, ?_, by decide⟩
  · intro pre post r text m hpre hr
    induction pre with
    | nil => simp [findMatch, hr]
    | cons r0 rest ih =>
      have h0 : r0.search text = none := hpre r0 (by simp)
      simp only [List.cons_append, findMatch, h0]
      exact ih (fun r' hr' => hpre r' (by simp [hr']))
  · intro rules text hall
    induction rules with
    | nil => rfl
    | cons r0 rest ih =>
      have h0 : r0.search text = none := hall r0 (by simp)
      simp only [findMatch, h0]
      exact ih (fun r' hr' => hall r' (by simp [hr']))

/-- Witness for C7: rule-order precedence at the first amount rule on a
concrete text where it matches, and the empty result on a text no amount
rule matches. -/
theorem C7_matcher_contract_witness :
    findMatch ([] ++ { hasGroups := true, search := searchWith tryAmount1 } ::
        [{ hasGroups := true, search := searchWith tryAmount2 }]) "₹ 7" =
      (if ({ hasGroups := true, search := searchWith tryAmount1 } : Rule).hasGroups
        then pyStrip "7" else pyStrip "₹ 7") ∧
    findMatch amountRules "no amount here" = "" :=
  ⟨C7_matcher_contract.1 [] [{ hasGroups := true, search := searchWith tryAmount2 }]
      { hasGroups := true, search := searchWith tryAmount1 } "₹ 7" ("₹ 7", "7")
      (by intro r' hr'; cases hr') (by decide),
   C7_matcher_contract.2.1 amountRules "no amount here" (by decide)⟩

/-! ## Preservation lemmas: later passes never overwrite non-empty fields -/

theorem tripleStep_preserve (line nl : String) (d : Record) (tr : MLTriple)
    (k : String) (h : rget d k ≠ "") :
    rget (tripleStep line nl d tr) k = rget d k := by
  simp only [tripleStep]
  split_ifs with h1 h2 h3
  · rfl
  · split
    · next v hv =>
      have hk : tr.fieldKey ≠ k := by
        intro he
        rw [he] at h1
        exact h1 h
      exact rget_rset_ne _ _ _ _ hk
    · rfl
  · rfl
  · rfl

theorem accountStandalone_preserve (d : Record) (line k : String)
    (h : rget d k ≠ "") :
    rget (accountStandalone d line) k = rget d k := by
  simp only [accountStandalone]
  split_ifs with h1
  · have hk : "Account Number" ≠ k := by
      intro he
      rw [← he] at h
      exact h h1.1
    exact rget_rset_ne _ _ _ _ hk
  · rfl

theorem ifscStandalone_preserve (d : Record) (line k : String)
    (h : rget d k ≠ "") :
    rget (ifscStandalone d line) k = rget d k := by
  simp only [ifscStandalone]
  split_ifs with h1 h2
  · have hk : "IFSC Code" ≠ k := by
      intro he
      rw [← he] at h
      exact h h1.1
    exact rget_rset_ne _ _ _ _ hk
  · rfl
  · rfl

theorem scanLineStep_preserve (triples : List MLTriple) (lines : List String)
    (d : Record) (il : Nat × String) (k : String) (h : rget d k ≠ "") :
    rget (scanLineStep triples lines d il) k = rget d k := by
  simp only [scanLineStep]
  split_ifs
  · rfl
  · have hfold : rget (triples.foldl (tripleStep il.2 (nextNonempty lines il.1)) d) k
        = rget d k :=
      rget_foldl_preserve _ (fun d' a k' hk' => tripleStep_preserve _ _ d' a k' hk')
        triples d k h
    have h1 : rget (triples.foldl (tripleStep il.2 (nextNonempty lines il.1)) d) k ≠ "" := by
      rw [hfold]; exact h
    have hacc := accountStandalone_preserve
      (triples.foldl (tripleStep il.2 (nextNonempty lines il.1)) d) il.2 k h1
    have h2 : rget (accountStandalone
        (triples.foldl (tripleStep il.2 (nextNonempty lines il.1)) d) il.2) k ≠ "" := by
      rw [hacc]; exact h1
    rw [ifscStandalone_preserve _ _ _ h2, hacc, hfold]

theorem scanPassbookLines_preserve (triples : List MLTriple) (text : String)
    (d : Record) (k : String) (h : rget d k ≠ "") :
    rget (scanPassbookLines triples text d) k = rget d k := by
  unfold scanPassbookLines
  exact rget_foldl_preserve _
    (fun d' a k' hk' => scanLineStep_preserve triples (scanLines text) d' a k' hk')
    _ d k h

theorem bankStep_preserve (d : Record) (line k : String) (h : rget d k ≠ "") :
    rget (bankStep d line) k = rget d k := by
  simp only [bankStep]
  split_ifs with h1 h2
  · have hk : "Bank Name" ≠ k := by
      intro he
      rw [← he] at h
      exact h h1.2
    exact rget_rset_ne _ _ _ _ hk
  · rfl
  · rfl

theorem toStep_preserve (lines : List String) (d : Record) (i : Nat)
    (line k : String) (h : rget d k ≠ "") :
    rget (toStep lines d i line) k = rget d k := by
  simp only [toStep]
  split_ifs with h1 h2 h3
  all_goals
    first
    | rfl
    | { have hk : "To (Receiver)" ≠ k := by
          intro he
          rw [← he] at h
          exact h h1.2
        exact rget_rset_ne _ _ _ _ hk }

theorem fromStep_preserve (lines : List String) (d : Record) (i : Nat)
    (line k : String) (h : rget d k ≠ "") :
    rget (fromStep lines d i line) k = rget d k := by
  simp only [fromStep]
  split_ifs with h1 h2 h3
  all_goals
    first
    | rfl
    | { have hk : "From (Sender)" ≠ k := by
          intro he
          rw [← he] at h
          exact h h1.2
        exact rget_rset_ne _ _ _ _ hk }

theorem heuristicStep_preserve (lines : List String) (d : Record)
    (il : Nat × String) (k : String) (h : rget d k ≠ "") :
    rget (heuristicStep lines d il) k = rget d k := by
  unfold heuristicStep
  have hb := bankStep_preserve d il.2 k h
  have h1 : rget (bankStep d il.2) k ≠ "" := by rw [hb]; exact h
  have ht := toStep_preserve lines (bankStep d il.2) il.1 il.2 k h1
  have h2 : rget (toStep lines (bankStep d il.2) il.1 il.2) k ≠ "" := by
    rw [ht]; exact h1
  rw [fromStep_preserve _ _ _ _ _ h2, ht, hb]

theorem heuristicScan_preserve (text : String) (d : Record) (k : String)
    (h : rget d k ≠ "") :
    rget (heuristicScan text d) k = rget d k := by
  unfold heuristicScan
  exact rget_foldl_preserve _
    (fun d' a k' hk' => heuristicStep_preserve (heuristicLines text) d' a k' hk')
    _ d k h

/-- C1: First-writer-wins across passes. The passbook multi-line scanner
(rule triples and both standalone recognizers) and the screenshot positional
heuristics (bank name, sender, receiver) write a field only when it is still
the empty string, so a field value set by an earlier pass is never
overwritten by a later pass. -/
theorem C1_first_writer_wins (triples : List MLTriple) (text : String)
    (d : Record) (k : String) :
    (rget d k ≠ "" → rget (scanPassbookLines triples text d) k = rget d k) ∧
    (rget d k ≠ "" → rget (heuristicScan text d) k = rget d k) := by
  exact ⟨scanPassbookLines_preserve triples text d k,
    heuristicScan_preserve text d k⟩

/-- Witness for C1: a non-empty IFSC code set by pass 1 survives the
multi-line scanner, and a non-empty bank name survives the heuristic scan,
on concrete text that would otherwise write both fields. -/
theorem C1_first_writer_wins_witness :
    rget (scanPassbookLines [] "ZZZZ0AAAAAA" [("IFSC Code", "SBIN0001234")])
        "IFSC Code" = rget [("IFSC Code", "SBIN0001234")] "IFSC Code" ∧
    rget (heuristicScan "HDFC Bank" [("Bank Name", "Axis Bank")]) "Bank Name" =
      rget [("Bank Name", "Axis Bank")] "Bank Name" :=
  ⟨(C1_first_writer_wins [] "ZZZZ0AAAAAA" [("IFSC Code", "SBIN0001234")]
      "IFSC Code").1 (by decide),
   (C1_first_writer_wins [] "HDFC Bank" [("Bank Name", "Axis Bank")]
      "Bank Name").2 (by decide)⟩

/-! ## Post-processing non-interference lemmas -/

theorem ppAccountClean_untouched (d : Record) (k : String)
    (h : k ≠ "Account Number") :
    rget (ppAccountClean d) k = rget d k := by
  simp only [ppAccountClean]
  split_ifs
  · exact rget_rset_ne _ _ _ _ (Ne.symm h)
  · rfl

theorem ppAccountType_untouched (d : Record) (k : String)
    (h : k ≠ "Account Type") :
    rget (ppAccountType d) k = rget d k := by
  simp only [ppAccountType]
  split
  · exact rget_rset_ne _ _ _ _ (Ne.symm h)
  · rfl

theorem ppBalanceMicr_untouched (d : Record) (k : String)
    (h : k ≠ "Balance (₹)") :
    rget (ppBalanceMicr d) k = rget d k := by
  simp only [ppBalanceMicr]
  split_ifs
  all_goals first | rfl | exact rget_rset_ne _ _ _ _ (Ne.symm h)

theorem ppMobile_untouched (d : Record) (k : String)
    (h : k ≠ "Mobile Number") :
    rget (ppMobile d) k = rget d k := by
  simp only [ppMobile]
  split_ifs
  · exact rget_rset_ne _ _ _ _ (Ne.symm h)
  · rfl

/-- After the collision guard, a record whose IFSC and MICR coincide
non-trivially ends with an empty MICR and an unchanged IFSC. -/
theorem postProcess_ifsc_micr (d : Record)
    (h1 : rget d "IFSC Code" ≠ "") (h2 : rget d "MICR Code" ≠ "")
    (heq : rget d "IFSC Code" = rget d "MICR Code") :
    rget (postProcessPassbook d) "MICR Code" = "" ∧
    rget (postProcessPassbook d) "IFSC Code" = rget d "IFSC Code" := by
  unfold postProcessPassbook
  have hI2 : rget (ppAccountType (ppAccountClean d)) "IFSC Code" = rget d "IFSC Code" := by
    rw [ppAccountType_untouched _ _ (by decide), ppAccountClean_untouched _ _ (by decide)]
  have hM2 : rget (ppAccountType (ppAccountClean d)) "MICR Code" = rget d "MICR Code" := by
    rw [ppAccountType_untouched _ _ (by decide), ppAccountClean_untouched _ _ (by decide)]
  have hcond : rget (ppAccountType (ppAccountClean d)) "IFSC Code" ≠ "" ∧
      rget (ppAccountType (ppAccountClean d)) "MICR Code" ≠ "" ∧
      rget (ppAccountType (ppAccountClean d)) "IFSC Code" =
        rget (ppAccountType (ppAccountClean d)) "MICR Code" := by
    rw [hI2, hM2]
    exact ⟨h1, h2, heq⟩
  have hguard : ppIfscMicr (ppAccountType (ppAccountClean d)) =
      rset (ppAccountType (ppAccountClean d)) "MICR Code" "" := by
    simp only [ppIfscMicr]
    rw [if_pos hcond]
  constructor
  · rw [ppMobile_untouched _ _ (by decide), ppBalanceMicr_untouched _ _ (by decide),
      hguard, rget_rset_self]
  · rw [ppMobile_untouched _ _ (by decide), ppBalanceMicr_untouched _ _ (by decide),
      hguard, rget_rset_ne _ _ _ _ (by decide), hI2]

/-- C8: IFSC/MICR collision guard. If, after both passbook extraction
passes, the IFSC Code and MICR Code are both non-empty and identical, the
returned record has an empty MICR Code and the unchanged IFSC Code; and the
scanner's standalone IFSC recognizer never stores a value equal to the
already-detected MICR Code. -/
theorem C8_ifsc_micr_guard (pbfm : String → String → String)
    (triples : List MLTriple) (text fn : String) :
    ((rget (scanPassbookLines triples text (passbookInit pbfm text fn)) "IFSC Code" ≠ "" →
      rget (scanPassbookLines triples text (passbookInit pbfm text fn)) "MICR Code" ≠ "" →
      rget (scanPassbookLines triples text (passbookInit pbfm text fn)) "IFSC Code" =
        rget (scanPassbookLines triples text (passbookInit pbfm text fn)) "MICR Code" →
      rget (parsePassbookDetails pbfm triples text fn) "MICR Code" = "" ∧
      rget (parsePassbookDetails pbfm triples text fn) "IFSC Code" =
        rget (scanPassbookLines triples text (passbookInit pbfm text fn)) "IFSC Code")) ∧
    (∀ (d : Record) (line : String), rget d "IFSC Code" = "" →
      rget (ifscStandalone d line) "IFSC Code" ≠ "" →
      rget (ifscStandalone d line) "IFSC Code" ≠ rget d "MICR Code") := by
  constructor
  · intro h1 h2 heq
    exact postProcess_ifsc_micr _ h1 h2 heq
  · intro d line hI hne
    simp only [ifscStandalone] at hne ⊢
    split_ifs with hc hm
    · rw [rget_rset_self]
      exact hm
    · rw [if_pos hc, if_neg hm] at hne
      exact absurd hI hne
    · rw [if_neg hc] at hne
      exact absurd hI hne

/-- Witness for C8: a passbook whose inline passes produce the identical
9-digit value for IFSC and MICR ends with MICR cleared, and the standalone
recognizer on a concrete line stores an IFSC different from the current
MICR. -/
theorem C8_ifsc_micr_guard_witness :
    (rget (parsePassbookDetails
        (fun key _ => if key = "ifsc_code" then "123456789"
          else if key = "micr_code" then "123456789" else "")
        [] "" "f") "MICR Code" = "" ∧
      rget (parsePassbookDetails
        (fun key _ => if key = "ifsc_code" then "123456789"
          else if key = "micr_code" then "123456789" else "")
        [] "" "f") "IFSC Code" =
        rget (scanPassbookLines [] ""
          (passbookInit (fun key _ => if key = "ifsc_code" then "123456789"
            else if key = "micr_code" then "123456789" else "") "" "f")) "IFSC Code") ∧
    rget (ifscStandalone [("MICR Code", "987654321")] "ZZZZ0AAAAAA") "IFSC Code" ≠
      rget [("MICR Code", "987654321")] "MICR Code" :=
  ⟨(C8_ifsc_micr_guard
      (fun key _ => if key = "ifsc_code" then "123456789"
        else if key = "micr_code" then "123456789" else "") [] "" "f").1
      (by decide) (by decide) (by decide),
   (C8_ifsc_micr_guard (fun _ _ => "") [] "" "f").2
      [("MICR Code", "987654321")] "ZZZZ0AAAAAA" (by decide) (by decide)⟩

/-! ## Field-key sets per mode -/

/-- The declared screenshot-mode field keys, in record order. -/
def screenshotFieldKeys : List String :=
  ["File Name", "UPI Transaction ID", "Google Transaction ID", "Reference ID",
   "From (Sender)", "To (Receiver)", "UPI ID / VPA", "Bank Name", "Amount",
   "Payment Status", "Date", "Time", "Transaction Note", "All Extracted Text"]

/-- The declared passbook-mode field keys, in record order. -/
def passbookFieldKeys : List String :=
  ["File Name", "Bank Name", "Account Holder", "Account Number", "Account Type",
   "IFSC Code", "MICR Code", "Branch Name", "CIF Number", "Date of Opening",
   "Nomination", "Joint Holder", "Address", "Mobile Number", "Date",
   "Transaction Type", "Narration", "Reference Number", "Cheque Number",
   "Credit (₹)", "Debit (₹)", "Balance (₹)", "Opening Balance (₹)",
   "Closing Balance (₹)", "All Extracted Text"]

theorem rkeys_rset_of_keys (d : Record) (K : List String) (k v : String)
    (hd : rkeys d = K) (hk : k ∈ K) : rkeys (rset d k v) = K := by
  rw [rkeys_rset_of_mem d k v (hd ▸ hk), hd]

theorem classifyTxnStep_keys (d : Record) (a : String)
    (hd : rkeys d = screenshotFieldKeys) :
    rkeys (classifyTxnStep d a) = screenshotFieldKeys := by
  simp only [classifyTxnStep]
  split_ifs
  all_goals first
  | exact hd
  | exact rkeys_rset_of_keys d _ _ _ hd (by decide)

theorem bankStep_keys (d : Record) (line : String)
    (hd : rkeys d = screenshotFieldKeys) :
    rkeys (bankStep d line) = screenshotFieldKeys := by
  simp only [bankStep]
  split_ifs
  all_goals first
  | exact hd
  | exact rkeys_rset_of_keys d _ _ _ hd (by decide)

theorem toStep_keys (lines : List String) (d : Record) (i : Nat) (line : String)
    (hd : rkeys d = screenshotFieldKeys) :
    rkeys (toStep lines d i line) = screenshotFieldKeys := by
  simp only [toStep]
  split_ifs
  all_goals first
  | exact hd
  | exact rkeys_rset_of_keys d _ _ _ hd (by decide)

theorem fromStep_keys (lines : List String) (d : Record) (i : Nat) (line : String)
    (hd : rkeys d = screenshotFieldKeys) :
    rkeys (fromStep lines d i line) = screenshotFieldKeys := by
  simp only [fromStep]
  split_ifs
  all_goals first
  | exact hd
  | exact rkeys_rset_of_keys d _ _ _ hd (by decide)

theorem parseScreenshot_keys (fm : String → String → String)
    (allIds : String → List String) (setEnum : List String → List String)
    (text fn : String) :
    rkeys (parseScreenshot fm allIds setEnum text fn) = screenshotFieldKeys := by
  unfold parseScreenshot
  have h0 : rkeys (screenshotInit text fn) = screenshotFieldKeys := by
    simp [screenshotInit, rkeys, screenshotFieldKeys]
  have h5 : rkeys (rset (rset (rset (rset (rset (screenshotInit text fn)
      "Amount" (cleanAmount (fm "amount" text)))
      "UPI ID / VPA" (fm "upi_id" text))
      "Date" (fm "date" text))
      "Time" (fm "time" text))
      "Payment Status" (mapStatus (fm "status" text))) = screenshotFieldKeys := by
    refine rkeys_rset_of_keys _ _ _ _ ?_ (by decide)
    refine rkeys_rset_of_keys _ _ _ _ ?_ (by decide)
    refine rkeys_rset_of_keys _ _ _ _ ?_ (by decide)
    refine rkeys_rset_of_keys _ _ _ _ ?_ (by decide)
    exact rkeys_rset_of_keys _ _ _ _ h0 (by decide)
  have h6 := rkeys_foldl classifyTxnStep screenshotFieldKeys
    (fun d a hd => classifyTxnStep_keys d a hd) (setEnum (allIds text)) _ h5
  unfold heuristicScan
  refine rkeys_foldl _ screenshotFieldKeys ?_ _ _ h6
  intro d a hd
  unfold heuristicStep
  exact fromStep_keys _ _ _ _ (toStep_keys _ _ _ _ (bankStep_keys _ _ hd))

theorem tripleFold_keys (line nl : String) (triples : List MLTriple)
    (K : List String) (htr : ∀ tr ∈ triples, tr.fieldKey ∈ K) (d : Record)
    (hd : rkeys d = K) :
    rkeys (triples.foldl (tripleStep line nl) d) = K := by
  induction triples generalizing d with
  | nil => exact hd
  | cons tr rest ih =>
    simp only [List.foldl_cons]
    refine ih (fun t ht => htr t (by simp [ht])) _ ?_
    simp only [tripleStep]
    split_ifs
    · exact hd
    · split
      · exact rkeys_rset_of_keys d _ _ _ hd (htr tr (by simp))
      · exact hd
    · exact hd
    · exact hd

theorem scanPassbookLines_keys (triples : List MLTriple) (text : String)
    (htr : ∀ tr ∈ triples, tr.fieldKey ∈ passbookFieldKeys) (d : Record)
    (hd : rkeys d = passbookFieldKeys) :
    rkeys (scanPassbookLines triples text d) = passbookFieldKeys := by
  unfold scanPassbookLines
  refine rkeys_foldl _ passbookFieldKeys ?_ _ _ hd
  intro d' a hd'
  simp only [scanLineStep]
  split_ifs
  · exact hd'
  · have h1 := tripleFold_keys a.2 (nextNonempty (scanLines text) a.1) triples
      passbookFieldKeys htr d' hd'
    have h2 : rkeys (accountStandalone
        (triples.foldl (tripleStep a.2 (nextNonempty (scanLines text) a.1)) d') a.2) =
        passbookFieldKeys := by
      simp only [accountStandalone]
      split_ifs
      · exact rkeys_rset_of_keys _ _ _ _ h1 (by decide)
      · exact h1
    simp only [ifscStandalone]
    split_ifs
    · exact rkeys_rset_of_keys _ _ _ _ h2 (by decide)
    · exact h2
    · exact h2

theorem postProcessPassbook_keys (d : Record)
    (hd : rkeys d = passbookFieldKeys) :
    rkeys (postProcessPassbook d) = passbookFieldKeys := by
  unfold postProcessPassbook
  have h1 : rkeys (ppAccountClean d) = passbookFieldKeys := by
    simp only [ppAccountClean]
    split_ifs
    · exact rkeys_rset_of_keys _ _ _ _ hd (by decide)
    · exact hd
  have h2 : rkeys (ppAccountType (ppAccountClean d)) = passbookFieldKeys := by
    simp only [ppAccountType]
    split
    · exact rkeys_rset_of_keys _ _ _ _ h1 (by decide)
    · exact h1
  have h3 : rkeys (ppIfscMicr (ppAccountType (ppAccountClean d))) =
      passbookFieldKeys := by
    simp only [ppIfscMicr]
    split_ifs
    · exact rkeys_rset_of_keys _ _ _ _ h2 (by decide)
    · exact h2
  have h4 : rkeys (ppBalanceMicr (ppIfscMicr (ppAccountType (ppAccountClean d)))) =
      passbookFieldKeys := by
    simp only [ppBalanceMicr]
    split_ifs
    · exact rkeys_rset_of_keys _ _ _ _ h3 (by decide)
    · exact h3
    · exact h3
  simp only [ppMobile]
  split_ifs
  · exact rkeys_rset_of_keys _ _ _ _ h4 (by decide)
  · exact h4

theorem parsePassbookDetails_keys (pbfm : String → String → String)
    (triples : List MLTriple)
    (htr : ∀ tr ∈ triples, tr.fieldKey ∈ passbookFieldKeys)
    (text fn : String) :
    rkeys (parsePassbookDetails pbfm triples text fn) = passbookFieldKeys := by
  unfold parsePassbookDetails
  refine postProcessPassbook_keys _ (scanPassbookLines_keys triples text htr _ ?_)
  simp [passbookInit, rkeys, passbookFieldKeys]

theorem extractAll_out_keys (ocr : String → Except String String)
    (parse : String → String → Record) (basename : String → String)
    (K : List String) (hparse : ∀ t f, rkeys (parse t f) = K)
    (paths : List String) (st : BatchState)
    (hst : ∀ rec ∈ st.out, rkeys rec = K ∨ rkeys rec = ["File Name", "Error"]) :
    ∀ rec ∈ (paths.foldl (extractStep ocr parse basename) st).out,
      rkeys rec = K ∨ rkeys rec = ["File Name", "Error"] := by
  induction paths generalizing st with
  | nil => exact hst
  | cons p ps ih =>
    simp only [List.foldl_cons]
    refine ih _ ?_
    intro rec hrec
    simp only [extractStep] at hrec
    rcases hocr : ocr p with e | t
    · rw [hocr] at hrec
      simp only at hrec
      rcases List.mem_append.mp hrec with hmem | hmem
      · exact hst rec hmem
      · simp only [List.mem_singleton] at hmem
        right
        rw [hmem]
        rfl
    · rw [hocr] at hrec
      simp only at hrec
      split_ifs at hrec
      · exact hst rec hrec
      · rcases List.mem_append.mp hrec with hmem | hmem
        · exact hst rec hmem
        · simp only [List.mem_singleton] at hmem
          left
          rw [hmem]
          exact hparse t (basename p)

/-- C2 counterexample: a document whose extraction raises yields a record
holding only File Name and Error, so not every record returned by
extract_all carries the declared screenshot field-key set. -/
theorem C2_uniform_keys_cex :
    ¬ (∀ rec ∈ (extractAll (fun _ => Except.error "OCR failed")
        (fun t f => parseScreenshot (fun _ _ => "") (fun _ => []) (fun l => l) t f)
        (fun p => p) ["a.png"]).1, rkeys rec = screenshotFieldKeys) := by
  decide

/-- C2 amended: every record produced by parse_details carries exactly the
declared field-key set of its mode, and in extract_all every returned record
carries either that set (successfully parsed documents) or exactly File Name
and Error (documents whose extraction raised). -/
theorem C2_uniform_keys_amended :
    (∀ (fm : String → String → String) (allIds : String → List String)
      (setEnum : List String → List String) (text fn : String),
      rkeys (parseScreenshot fm allIds setEnum text fn) = screenshotFieldKeys) ∧
    (∀ (pbfm : String → String → String) (triples : List MLTriple),
      (∀ tr ∈ triples, tr.fieldKey ∈ passbookFieldKeys) →
      ∀ (text fn : String),
      rkeys (parsePassbookDetails pbfm triples text fn) = passbookFieldKeys) ∧
    (∀ (ocr : String → Except String String) (parse : String → String → Record)
      (basename : String → String) (K : List String),
      (∀ t f, rkeys (parse t f) = K) →
      ∀ (paths : List String), ∀ rec ∈ (extractAll ocr parse basename paths).1,
        rkeys rec = K ∨ rkeys rec = ["File Name", "Error"]) := by
  refine ⟨parseScreenshot_keys, ?_, ?_⟩
  · intro pbfm triples htr text fn
    exact parsePassbookDetails_keys pbfm triples htr text fn
  · intro ocr parse basename K hparse paths
    exact extractAll_out_keys ocr parse basename K hparse paths initBatchState
      (by intro rec hrec; cases hrec)

/-- Witness for C2 amended, at concrete instantiations: the passbook key
set with an empty triple list, and the extract_all alternative applied to
the record of a successfully parsed document. -/
theorem C2_uniform_keys_amended_witness :
    rkeys (parsePassbookDetails (fun _ _ => "") [] "" "f") = passbookFieldKeys ∧
    (rkeys [("File Name", "a")] = ["File Name"] ∨
      rkeys [("File Name", "a")] = ["File Name", "Error"]) :=
  ⟨C2_uniform_keys_amended.2.1 (fun _ _ => "") [] (by intro tr htr; cases htr) "" "f",
   C2_uniform_keys_amended.2.2 (fun _ => Except.ok "x")
     (fun _ _ => [("File Name", "a")]) (fun p => p) ["File Name"]
     (fun t f => rfl) ["a"] [("File Name", "a")] (by decide)⟩

/-- C3: Duplicate detection. When OCR succeeds and the parsed record's
content signature was already seen, the record is not added and only the
duplicates counter is incremented; when the signature is new, the record is
appended, the signature is remembered, and success is incremented; hence a
two-document batch whose records have set-equal signatures keeps exactly
the first record, with success one and duplicates one. -/
theorem C3_duplicate_detection (ocr : String → Except String String)
    (parse : String → String → Record) (basename : String → String) :
    (∀ (st : BatchState) (p text : String), ocr p = Except.ok text →
      seenContains st.seen (signature (parse text (basename p))) = true →
      extractStep ocr parse basename st p =
        { st with summary :=
            { st.summary with duplicates := st.summary.duplicates + 1 } }) ∧
    (∀ (st : BatchState) (p text : String), ocr p = Except.ok text →
      seenContains st.seen (signature (parse text (basename p))) = false →
      extractStep ocr parse basename st p =
        { out := st.out ++ [parse text (basename p)],
          seen := st.seen ++ [signature (parse text (basename p))],
          summary := { st.summary with success := st.summary.success + 1 } }) ∧
    (∀ (p1 p2 t1 t2 : String), ocr p1 = Except.ok t1 → ocr p2 = Except.ok t2 →
      sigEq (signature (parse t1 (basename p1)))
        (signature (parse t2 (basename p2))) = true →
      extractAll ocr parse basename [p1, p2] =
        ([parse t1 (basename p1)],
          { success := 1, failed := 0, duplicates := 1, errors := [] })) := by
  refine ⟨?_, ?_, ?_⟩
  · intro st p text hocr hseen
    simp only [extractStep, hocr]
    rw [if_pos hseen]
  · intro st p text hocr hseen
    simp only [extractStep, hocr]
    rw [if_neg (by simp [hseen])]
  · intro p1 p2 t1 t2 h1 h2 hsig
    simp only [extractAll, List.foldl_cons, List.foldl_nil]
    have hstep1 : extractStep ocr parse basename initBatchState p1 =
        { out := [parse t1 (basename p1)],
          seen := [signature (parse t1 (basename p1))],
          summary := { success := 1, failed := 0, duplicates := 0, errors := [] } } := by
      simp only [extractStep, h1, initBatchState]
      rw [if_neg (by simp [seenContains])]
      simp
    rw [hstep1]
    simp only [extractStep, h2]
    rw [if_pos (by simp [seenContains, hsig])]

/-- Witness for C3: two documents with identical OCR text produce set-equal
signatures, so the batch keeps one record with success one and duplicates
one. -/
theorem C3_duplicate_detection_witness :
    extractAll (fun _ => Except.ok "T")
        (fun t f => [("File Name", f), ("X", t)]) (fun p => p) ["a", "b"] =
      ([[("File Name", "a"), ("X", "T")]],
        { success := 1, failed := 0, duplicates := 1, errors := [] }) :=
  (C3_duplicate_detection (fun _ => Except.ok "T")
      (fun t f => [("File Name", f), ("X", t)]) (fun p => p)).2.2
    "a" "b" "T" "T" rfl rfl (by decide)

/-- C4: Per-document error isolation. A document whose extraction raises
contributes a minimal File Name / Error record to the output, increments
failed, appends its (filename, message) pair to the error list, and leaves
everything else unchanged; the batch then continues with the remaining
documents (extract_all is a total function of the whole list, so an
individual document never aborts it). -/
theorem C4_error_isolation (ocr : String → Except String String)
    (parse : String → String → Record) (basename : String → String) :
    (∀ (st : BatchState) (p e : String), ocr p = Except.error e →
      extractStep ocr parse basename st p =
        { out := st.out ++ [[("File Name", basename p), ("Error", e)]],
          seen := st.seen,
          summary :=
            { st.summary with
              failed := st.summary.failed + 1,
              errors := st.summary.errors ++ [(basename p, e)] } }) ∧
    (∀ (st : BatchState) (p : String) (ps : List String),
      List.foldl (extractStep ocr parse basename) st (p :: ps) =
        List.foldl (extractStep ocr parse basename)
          (extractStep ocr parse basename st p) ps) := by
  constructor
  · intro st p e hocr
    simp only [extractStep, hocr]
  · intro st p ps
    simp only [List.foldl_cons]

/-- Witness for C4: a concrete failing document in the middle of a batch is
recorded and the batch continues. -/
theorem C4_error_isolation_witness :
    extractStep (fun p => if p = "bad" then Except.error "boom" else Except.ok "T")
        (fun t f => [("File Name", f), ("X", t)]) (fun p => p)
        initBatchState "bad" =
      { out := [[("File Name", "bad"), ("Error", "boom")]],
        seen := [],
        summary := { success := 0, failed := 1, duplicates := 0,
                     errors := [("bad", "boom")] } } := by
  have h := (C4_error_isolation
      (fun p => if p = "bad" then Except.error "boom" else Except.ok "T")
      (fun t f => [("File Name", f), ("X", t)]) (fun p => p)).1
    initBatchState "bad" "boom" (by rfl)
  rw [h]
  rfl

theorem batchFold_accounting (ocr : String → Except String String)
    (parse : String → String → Record) (basename : String → String)
    (paths : List String) (st : BatchState) :
    (paths.foldl (extractStep ocr parse basename) st).summary.success +
        (paths.foldl (extractStep ocr parse basename) st).summary.failed +
        (paths.foldl (extractStep ocr parse basename) st).summary.duplicates =
      st.summary.success + st.summary.failed + st.summary.duplicates +
        paths.length ∧
    (st.out.length = st.summary.success + st.summary.failed →
      (paths.foldl (extractStep ocr parse basename) st).out.length =
        (paths.foldl (extractStep ocr parse basename) st).summary.success +
          (paths.foldl (extractStep ocr parse basename) st).summary.failed) ∧
    (st.summary.errors.length = st.summary.failed →
      (paths.foldl (extractStep ocr parse basename) st).summary.errors.length =
        (paths.foldl (extractStep ocr parse basename) st).summary.failed) := by
  induction paths generalizing st with
  | nil => exact ⟨rfl, fun h => h, fun h => h⟩
  | cons p ps ih =>
    simp only [List.foldl_cons, List.length_cons]
    have hstep :
        (extractStep ocr parse basename st p).summary.success +
            (extractStep ocr parse basename st p).summary.failed +
            (extractStep ocr parse basename st p).summary.duplicates =
          st.summary.success + st.summary.failed + st.summary.duplicates + 1 ∧
        (st.out.length = st.summary.success + st.summary.failed →
          (extractStep ocr parse basename st p).out.length =
            (extractStep ocr parse basename st p).summary.success +
              (extractStep ocr parse basename st p).summary.failed) ∧
        (st.summary.errors.length = st.summary.failed →
          (extractStep ocr parse basename st p).summary.errors.length =
            (extractStep ocr parse basename st p).summary.failed) := by
      simp only [extractStep]
      rcases ocr p with e | t
      · simp only []
        refine ⟨by omega, ?_, ?_⟩
        · intro h; simp [h]; omega
        · intro h; simp [h]
      · simp only []
        split_ifs
        · refine ⟨by simp; omega, ?_, fun h => h⟩
          intro h; simpa using h
        · refine ⟨by simp; omega, ?_, fun h => h⟩
          intro h; simp [h]; omega
    obtain ⟨ha, hb, hc⟩ := ih (extractStep ocr parse basename st p)
    refine ⟨by omega, ?_, ?_⟩
    · intro h
      exact hb (hstep.2.1 h)
    · intro h
      exact hc (hstep.2.2 h)

/-- C10: Summary accounting. For every batch, success plus failed plus
duplicates equals the number of input documents, the returned record list
has success plus failed entries, and the error list has failed entries. -/
theorem C10_summary_accounting (ocr : String → Except String String)
    (parse : String → String → Record) (basename : String → String)
    (paths : List String) :
    (extractAll ocr parse basename paths).2.success +
        (extractAll ocr parse basename paths).2.failed +
        (extractAll ocr parse basename paths).2.duplicates = paths.length ∧
    (extractAll ocr parse basename paths).1.length =
      (extractAll ocr parse basename paths).2.success +
        (extractAll ocr parse basename paths).2.failed ∧
    (extractAll ocr parse basename paths).2.errors.length =
      (extractAll ocr parse basename paths).2.failed := by
  obtain ⟨ha, hb, hc⟩ := batchFold_accounting ocr parse basename paths initBatchState
  refine ⟨?_, ?_, ?_⟩
  · simpa [extractAll, initBatchState] using ha
  · simpa [extractAll, initBatchState] using hb (by simp [initBatchState])
  · simpa [extractAll, initBatchState] using hc (by simp [initBatchState])

/-! ## Agreement lemmas: the heuristic pass depends only on the lines and
on the non-transaction-id fields -/

theorem rset_agree (x y : Record) (key v k : String)
    (h : rget x k = rget y k) :
    rget (rset x key v) k = rget (rset y key v) k := by
  by_cases hk : key = k
  · rw [← hk, rget_rset_self, rget_rset_self]
  · rw [rget_rset_ne _ _ _ _ hk, rget_rset_ne _ _ _ _ hk, h]

theorem bankStep_agree (x y : Record) (line : String)
    (h : ∀ k', k' ≠ "Google Transaction ID" → k' ≠ "Reference ID" →
      k' ≠ "UPI Transaction ID" → rget x k' = rget y k') :
    ∀ k, k ≠ "Google Transaction ID" → k ≠ "Reference ID" →
      k ≠ "UPI Transaction ID" →
      rget (bankStep x line) k = rget (bankStep y line) k := by
  intro k h1 h2 h3
  have hbn : rget x "Bank Name" = rget y "Bank Name" :=
    h "Bank Name" (by decide) (by decide) (by decide)
  simp only [bankStep, hbn]
  split_ifs
  · exact rset_agree x y _ _ k (h k h1 h2 h3)
  · exact h k h1 h2 h3
  · exact h k h1 h2 h3

theorem toStep_agree (lines : List String) (x y : Record) (i : Nat) (line : String)
    (h : ∀ k', k' ≠ "Google Transaction ID" → k' ≠ "Reference ID" →
      k' ≠ "UPI Transaction ID" → rget x k' = rget y k') :
    ∀ k, k ≠ "Google Transaction ID" → k ≠ "Reference ID" →
      k ≠ "UPI Transaction ID" →
      rget (toStep lines x i line) k = rget (toStep lines y i line) k := by
  intro k h1 h2 h3
  have hto : rget x "To (Receiver)" = rget y "To (Receiver)" :=
    h "To (Receiver)" (by decide) (by decide) (by decide)
  simp only [toStep, hto]
  split_ifs
  · exact rset_agree x y _ _ k (h k h1 h2 h3)
  · exact rset_agree x y _ _ k (h k h1 h2 h3)
  · exact h k h1 h2 h3
  · exact h k h1 h2 h3

theorem fromStep_agree (lines : List String) (x y : Record) (i : Nat) (line : String)
    (h : ∀ k', k' ≠ "Google Transaction ID" → k' ≠ "Reference ID" →
      k' ≠ "UPI Transaction ID" → rget x k' = rget y k') :
    ∀ k, k ≠ "Google Transaction ID" → k ≠ "Reference ID" →
      k ≠ "UPI Transaction ID" →
      rget (fromStep lines x i line) k = rget (fromStep lines y i line) k := by
  intro k h1 h2 h3
  have hfr : rget x "From (Sender)" = rget y "From (Sender)" :=
    h "From (Sender)" (by decide) (by decide) (by decide)
  simp only [fromStep, hfr]
  split_ifs
  · exact rset_agree x y _ _ k (h k h1 h2 h3)
  · exact rset_agree x y _ _ k (h k h1 h2 h3)
  · exact h k h1 h2 h3
  · exact h k h1 h2 h3

theorem heuristicStep_agree (lines : List String) (x y : Record)
    (il : Nat × String)
    (h : ∀ k', k' ≠ "Google Transaction ID" → k' ≠ "Reference ID" →
      k' ≠ "UPI Transaction ID" → rget x k' = rget y k') :
    ∀ k, k ≠ "Google Transaction ID" → k ≠ "Reference ID" →
      k ≠ "UPI Transaction ID" →
      rget (heuristicStep lines x il) k = rget (heuristicStep lines y il) k := by
  unfold heuristicStep
  exact fromStep_agree lines _ _ il.1 il.2
    (toStep_agree lines _ _ il.1 il.2 (bankStep_agree x y il.2 h))

theorem heuristicScan_agree (text : String) (x y : Record)
    (h : ∀ k', k' ≠ "Google Transaction ID" → k' ≠ "Reference ID" →
      k' ≠ "UPI Transaction ID" → rget x k' = rget y k') :
    ∀ k, k ≠ "Google Transaction ID" → k ≠ "Reference ID" →
      k ≠ "UPI Transaction ID" →
      rget (heuristicScan text x) k = rget (heuristicScan text y) k := by
  unfold heuristicScan
  generalize (heuristicLines text).enum = l
  induction l generalizing x y with
  | nil => exact h
  | cons a t ih =>
    simp only [List.foldl_cons]
    exact ih _ _ (heuristicStep_agree (heuristicLines text) x y a h)

/-- C9: Determinism of extraction. With the process's set-iteration order
modelled as an enumeration function, two runs of parse_details on identical
text, filename and source type produce identical Document Records whenever
the enumerations of the deduplicated candidate tokens coincide (as they do
inside one interpreter process); moreover every field other than the three
transaction-id fields is independent of the enumeration altogether. -/
theorem C9_determinism (fm : String → String → String)
    (allIds : String → List String) (e1 e2 : List String → List String)
    (pbfm : String → String → String) (triples : List MLTriple)
    (text fn st : String) :
    (e1 (allIds text) = e2 (allIds text) →
      parseDetails fm allIds e1 pbfm triples text fn st =
        parseDetails fm allIds e2 pbfm triples text fn st) ∧
    (∀ k, k ≠ "Google Transaction ID" → k ≠ "Reference ID" →
      k ≠ "UPI Transaction ID" →
      rget (parseDetails fm allIds e1 pbfm triples text fn st) k =
        rget (parseDetails fm allIds e2 pbfm triples text fn st) k) := by
  constructor
  · intro h
    by_cases hsrc : st = "passbook"
    · simp [parseDetails, hsrc]
    · simp only [parseDetails, if_neg hsrc]
      unfold parseScreenshot
      rw [h]
  · intro k h1 h2 h3
    by_cases hsrc : st = "passbook"
    · simp [parseDetails, hsrc]
    · simp only [parseDetails, if_neg hsrc]
      unfold parseScreenshot
      refine heuristicScan_agree text _ _ ?_ k h1 h2 h3
      intro k' a b c
      rw [classifyFold_untouched _ _ _ a b c, classifyFold_untouched _ _ _ a b c]

/-- Witness for C9: two syntactically different enumeration functions that
agree on the (empty) candidate list produce the identical record, and the
Amount field agrees regardless of the enumeration. -/
theorem C9_determinism_witness :
    parseDetails (fun _ _ => "") (fun _ => []) (fun l => l) (fun _ _ => "") []
        "x" "f" "screenshot" =
      parseDetails (fun _ _ => "") (fun _ => []) (fun l => l.reverse)
        (fun _ _ => "") [] "x" "f" "screenshot" ∧
    rget (parseDetails (fun _ _ => "") (fun _ => []) (fun l => l) (fun _ _ => "")
        [] "x" "f" "screenshot") "Amount" =
      rget (parseDetails (fun _ _ => "") (fun _ => []) (fun l => l.reverse)
        (fun _ _ => "") [] "x" "f" "screenshot") "Amount" :=
  ⟨(C9_determinism (fun _ _ => "") (fun _ => []) (fun l => l) (fun l => l.reverse)
      (fun _ _ => "") [] "x" "f" "screenshot").1 rfl,
   (C9_determinism (fun _ _ => "") (fun _ => []) (fun l => l) (fun l => l.reverse)
      (fun _ _ => "") [] "x" "f" "screenshot").2 "Amount" (by decide) (by decide)
      (by decide)⟩
